import Mathlib

/-!  Shallow embedding of `src/mvgutils/intrinsics.py` (camera intrinsic
model and distortion engine).  Real/float arithmetic is embedded as exact
rational arithmetic over `ℚ`; float literals are taken at their written
decimal value and `np.finfo(np.float64).eps` at its exact value `2 ^ (-52)`.
Fallible Python code (explicit `raise`, `np.linalg.inv` applied to a
singular matrix, and a read of an unbound local variable) is embedded in
`Except`. -/

attribute [local semireducible] Rat.mul Rat.add Rat.sub Rat.inv Rat.ofScientific

/-- Failure modes of the embedded code, one constructor per distinct
Python exception site. -/
inductive MvgError where
  /-- Python `ValueError`: camera model name not in `SUPPORTED_CAMERA_MODELS`. -/
  | invalidModel
  /-- Python `ValueError`: wrong number of parameters for the camera model. -/
  | paramCount
  /-- Numpy `LinAlgError` raised by `np.linalg.inv` on a singular matrix. -/
  | linalgSingular
  /-- Python `UnboundLocalError`: `distort_points` returns the local variable
  `p_cam_distorted` before any assignment to it when the distortion vector
  has length zero. -/
  | unboundLocal
  /-- Python `ValueError`: `distort_points` refused for the OpenCV coupled models,
  which distort and project in a single call on 3D points. -/
  | opencvRequires3d
  /-- Python `ValueError`: `distort_points` not implemented for the camera model. -/
  | distortNotImplemented
  /-- A call into the external `cv2.projectPoints` / `cv2.fisheye.projectPoints`
  primitive; that routine is an external collaborator and is not embedded. -/
  | externalCv2
  deriving DecidableEq

instance {ε α : Type} [DecidableEq ε] [DecidableEq α] :
    DecidableEq (Except ε α) := fun a b =>
  match a, b with
  | .ok x, .ok y =>
    if h : x = y then .isTrue (by rw [h]) else .isFalse (by simp [h])
  | .ok _, .error _ => .isFalse (by simp)
  | .error _, .ok _ => .isFalse (by simp)
  | .error e, .error f =>
    if h : e = f then .isTrue (by rw [h]) else .isFalse (by simp [h])

/-- One row of the `SUPPORTED_CAMERA_MODELS` table: `id`, `n_params` and the
comma-separated parameter-name string, exactly as in the source. -/
structure CameraModel where
  id : Int
  n_params : Nat
  params_str : String
  deriving DecidableEq

/-- The `SUPPORTED_CAMERA_MODELS` dict, in declaration order. -/
def SUPPORTED_CAMERA_MODELS : List (String × CameraModel) := [
  ("SIMPLE_PINHOLE", ⟨0, 3, "f, cx, cy"⟩),
  ("PINHOLE", ⟨1, 4, "fx, fy, cx, cy"⟩),
  ("SIMPLE_RADIAL", ⟨2, 4, "f, cx, cy, k"⟩),
  ("RADIAL", ⟨3, 5, "f, cx, cy, k1, k2"⟩),
  ("OPENCV", ⟨4, 8, "fx, fy, cx, cy, k1, k2, p1, p2"⟩),
  ("OPENCV_FISHEYE", ⟨5, 8, "fx, fy, cx, cy, k1, k2, k3, k4"⟩),
  ("FULL_OPENCV", ⟨6, 12, "fx, fy, cx, cy, k1, k2, p1, p2, k3, k4, k5, k6"⟩),
  ("FOV", ⟨7, 5, "fx, fy, cx, cy, omega"⟩),
  ("OPENCV5", ⟨-1, 9, "fx, fy, cx, cy, k1, k2, p1, p2, k3"⟩),
  ("UNKNOWN", ⟨-1, 0, "[]"⟩)]

/-- Python's `str.split(',')` on the character list of a string: splits at
every comma, keeping empty pieces. -/
def splitOnComma (s : List Char) : List (List Char) :=
  s.foldr
    (fun ch acc =>
      if ch = ',' then [] :: acc
      else
        match acc with
        | [] => [[ch]]
        | g :: gs => (ch :: g) :: gs)
    [[]]

/-- Python's `str.strip()` restricted to spaces (the only whitespace that
occurs in the parameter-name strings). -/
def stripSpaces (s : List Char) : List Char :=
  ((s.dropWhile (fun c => c = ' ')).reverse.dropWhile (fun c => c = ' ')).reverse

/-- Computes `params_str.split(',')` followed by `p.strip()` on every piece, as done
in `Intrinsics.__init__` and `Intrinsics._set_params`. -/
def modelParamNames (m : CameraModel) : List String :=
  (splitOnComma m.params_str.data).map (fun cs => ⟨stripSpaces cs⟩)

/-- The constructed state of an `Intrinsics` object: model name, image size,
the camera-matrix coefficients stored in `_K`, and the residual distortion
vector `_distortions`. -/
structure Intrinsics where
  camera_model_name : String
  w : Int
  h : Int
  fx : ℚ
  fy : ℚ
  cx : ℚ
  cy : ℚ
  distortions : List ℚ
  deriving DecidableEq

/-- The list `camera_matrix_components = ['f','fx','fy','cx','cy']`. -/
def camera_matrix_components : List String := ["f", "fx", "fy", "cx", "cy"]

/-- Camera-matrix coefficients accumulated by `_set_params`
(`cp = edict(fx=0.,fy=0.,cx=0.,cy=0.)`). -/
structure CamCoeffs where
  fx : ℚ
  fy : ℚ
  cx : ℚ
  cy : ℚ
  deriving DecidableEq

/-- The classification loop of `_set_params`: parameters whose name is not a
camera-matrix component are appended to the distortion list; `f` sets both
focal lengths; the rest set their named field. -/
def classify_params (pairs : List (String × ℚ)) : CamCoeffs × List ℚ :=
  pairs.foldl
    (fun st nv =>
      let cp := st.1
      let dlist := st.2
      let name := nv.1
      let val := nv.2
      if ¬ (camera_matrix_components.contains name) then (cp, dlist ++ [val])
      else if name = "f" then ({ cp with fx := val, fy := val }, dlist)
      else if name = "fx" then ({ cp with fx := val }, dlist)
      else if name = "fy" then ({ cp with fy := val }, dlist)
      else if name = "cx" then ({ cp with cx := val }, dlist)
      else ({ cp with cy := val }, dlist))
    (⟨0, 0, 0, 0⟩, [])

/-- Embeds `Intrinsics.__init__` followed by `_set_params`: validates the model
name, validates the parameter count against the split parameter-name list,
classifies the parameters, and inverts the camera matrix (`np.linalg.inv`
raises `LinAlgError` exactly when `det K = fx * fy = 0`). -/
def Intrinsics.mk? (camera_model_name : String) (width height : Int)
    (params : List ℚ) : Except MvgError Intrinsics :=
  match SUPPORTED_CAMERA_MODELS.lookup camera_model_name with
  | none => .error .invalidModel
  | some model =>
    let param_names := modelParamNames model
    if param_names.length ≠ params.length then .error .paramCount
    else
      let cpd := classify_params (param_names.zip params)
      if cpd.1.fx * cpd.1.fy = 0 then .error .linalgSingular
      else .ok ⟨camera_model_name, width, height,
                cpd.1.fx, cpd.1.fy, cpd.1.cx, cpd.1.cy, cpd.2⟩

/-- Whether `pat` occurs as a contiguous sublist of `s`; implements the
Python substring test `pat in s`. -/
def charsContain (pat : List Char) : List Char → Bool
  | [] => pat.isEmpty
  | c :: rest => pat.isPrefixOf (c :: rest) || charsContain pat rest

/-- Embeds `Intrinsics.is_single_focal_lenght`: the test `'SIMPLE' in camera_model_name`
(source spelling kept). -/
def Intrinsics.is_single_focal_lenght (ci : Intrinsics) : Bool :=
  charsContain "SIMPLE".data ci.camera_model_name.data

/-- The `params` property: `[fx, cx, cy]` for single-focal models, else
`[fx, fy, cx, cy]`, followed by the distortions. -/
def Intrinsics.params (ci : Intrinsics) : List ℚ :=
  (if ci.is_single_focal_lenght then [ci.fx, ci.cx, ci.cy]
   else [ci.fx, ci.fy, ci.cx, ci.cy]) ++ ci.distortions

/-- Embeds `Intrinsics._get_params_to_new_cx_cy_fx_fy`. -/
def Intrinsics.get_params_to_new_cx_cy_fx_fy (ci : Intrinsics)
    (new_cx new_cy new_fx new_fy : ℚ) : List ℚ :=
  (if ci.is_single_focal_lenght then [new_fx, new_cx, new_cy]
   else [new_fx, new_fy, new_cx, new_cy]) ++ ci.distortions

/-- Embeds `Intrinsics.crop`.  The source passes `self.fx` for both the `new_fx`
and the `new_fy` argument of `_get_params_to_new_cx_cy_fx_fy`. -/
def Intrinsics.crop (ci : Intrinsics) (top_left : ℚ × ℚ)
    (crop_size : Int × Int) : Except MvgError Intrinsics :=
  let new_cx := ci.cx - top_left.1
  let new_cy := ci.cy - top_left.2
  let new_width := crop_size.1
  let new_height := crop_size.2
  let new_params := ci.get_params_to_new_cx_cy_fx_fy new_cx new_cy ci.fx ci.fx
  Intrinsics.mk? ci.camera_model_name new_width new_height new_params

/-- Elementwise `np.maximum` (and Python float comparison): yields `b` when
`a ≤ b`, else `a`; written with an `if` because it must evaluate. -/
def np_maximum (a b : ℚ) : ℚ := if a ≤ b then b else a

/-- Embeds `z.clip(min=eps)`: values below `eps` are replaced by `eps`. -/
def np_clip_min (z eps : ℚ) : ℚ := if z < eps then eps else z

/-- Embeds `np.max` over a nonempty list (total, with default on the empty list). -/
def np_max (l : List ℚ) : ℚ := l.foldl np_maximum (l.headD 0)

/-- Elementwise `np.minimum` used by `np_min`. -/
def np_minimum (a b : ℚ) : ℚ := if b ≤ a then b else a

/-- Embeds `np.min` over a nonempty list (total, with default on the empty list). -/
def np_min (l : List ℚ) : ℚ := l.foldl np_minimum (l.headD 0)

/-- Embeds `to_homogeneous` on a batch of N-dimensional points (numpy branch):
concatenate a coordinate equal to 1 along the last axis. -/
def to_homogeneous (points : List (List ℚ)) : List (List ℚ) :=
  points.map (fun p => p ++ [1])

/-- Embeds `from_homogeneous`: `points[..., :-1] / points[..., -1:]`. -/
def from_homogeneous (points : List (List ℚ)) : List (List ℚ) :=
  points.map (fun p => p.dropLast.map (fun a => a / p.getLastD 0))

/-- A 3x3 matrix, given row-wise. -/
structure Mat3 where
  m00 : ℚ
  m01 : ℚ
  m02 : ℚ
  m10 : ℚ
  m11 : ℚ
  m12 : ℚ
  m20 : ℚ
  m21 : ℚ
  m22 : ℚ
  deriving DecidableEq

/-- The `K_3` property: the top-left 3x3 block of the camera matrix `_K`. -/
def Intrinsics.K_3 (ci : Intrinsics) : Mat3 :=
  ⟨ci.fx, 0, ci.cx,
   0, ci.fy, ci.cy,
   0, 0, 1⟩

/-- The `K_3_inv` field: `np.linalg.inv` of `K_3`, written in closed form
(exact for this upper-triangular matrix; the construction already failed
with `LinAlgError` when `fx * fy = 0`). -/
def Intrinsics.K_3_inv (ci : Intrinsics) : Mat3 :=
  ⟨1 / ci.fx, 0, -ci.cx / ci.fx,
   0, 1 / ci.fy, -ci.cy / ci.fy,
   0, 0, 1⟩

/-- Computes `[x, y, 1] @ M.T` and drops the homogeneous coordinate, the
row-vector convention used by `to_image_points` and `to_camera_points`. -/
def homogeneousRowMulT (M : Mat3) (p : ℚ × ℚ) : ℚ × ℚ :=
  (M.m00 * p.1 + M.m01 * p.2 + M.m02,
   M.m10 * p.1 + M.m11 * p.2 + M.m12)

/-- Embeds `Intrinsics.to_image_points`: camera plane to pixels through `K_3`. -/
def Intrinsics.to_image_points (ci : Intrinsics) (pc_distorted : List (ℚ × ℚ)) :
    List (ℚ × ℚ) :=
  pc_distorted.map (homogeneousRowMulT ci.K_3)

/-- Embeds `Intrinsics.to_camera_points`: pixels to the (distorted) camera
plane through `K_3_inv`. -/
def Intrinsics.to_camera_points (ci : Intrinsics) (pu : List (ℚ × ℚ)) :
    List (ℚ × ℚ) :=
  pu.map (homogeneousRowMulT ci.K_3_inv)

/-- Embeds `Intrinsics.project_points`: perspective projection of 3D points
`(x, y, z)` to the camera plane, with validity mask `z > eps`, depth clip at
`eps = 1e-3` and disparity `1 / z`. -/
def Intrinsics.project_points (_ci : Intrinsics) (pc3d : List (ℚ × ℚ × ℚ)) :
    List (ℚ × ℚ) × List ℚ × List Bool :=
  let eps : ℚ := 1/1000
  let valid := pc3d.map (fun p => decide (p.2.2 > eps))
  let disparity := pc3d.map (fun p => 1 / np_clip_min p.2.2 eps)
  let p2d := pc3d.map (fun p =>
    let d := 1 / np_clip_min p.2.2 eps
    (p.1 * d, p.2.1 * d))
  (p2d, disparity, valid)

/-- The pure elementwise distortion map of `distort_points` for one of the
implemented polynomial families, keyed by model name; `none` for a model
with no standalone 2D distortion. -/
def distortMap (camera_model_name : String) (distortions : List ℚ) :
    Option ((ℚ × ℚ) → (ℚ × ℚ)) :=
  if camera_model_name = "SIMPLE_RADIAL" then
    let k1 := distortions.getD 0 0
    some (fun p =>
      let xd := p.1
      let yd := p.2
      let x2 := xd * xd
      let y2 := yd * yd
      let r2 := x2 + y2
      let a := 1 + k1 * r2
      (a * xd, a * yd))
  else if camera_model_name = "RADIAL" then
    let k1 := distortions.getD 0 0
    let k2 := distortions.getD 1 0
    some (fun p =>
      let xd := p.1
      let yd := p.2
      let x2 := xd * xd
      let y2 := yd * yd
      let r2 := x2 + y2
      let r4 := r2 * r2
      let a := 1 + k1 * r2 + k2 * r4
      (a * xd, a * yd))
  else if camera_model_name = "OPENCV5" then
    let k1 := distortions.getD 0 0
    let k2 := distortions.getD 1 0
    let p1 := distortions.getD 2 0
    let p2 := distortions.getD 3 0
    let k3 := distortions.getD 4 0
    some (fun p =>
      let xd := p.1
      let yd := p.2
      let x2 := xd * xd
      let y2 := yd * yd
      let xy := xd * yd
      let r2 := x2 + y2
      let r4 := r2 * r2
      let r6 := r2 * r4
      let a := 1 + k1 * r2 + k2 * r4 + k3 * r6
      (a * xd + 2 * p1 * xy + p2 * (r2 + 2 * x2),
       a * yd + p1 * (r2 + 2 * y2) + 2 * p2 * xy))
  else none

/-- Embeds `Intrinsics.distort_points`.  Branch order follows the source: a
zero-length distortion vector hits `return p_cam_distorted.copy()`, which
reads the local `p_cam_distorted` before any assignment and therefore raises
`UnboundLocalError`; the OpenCV coupled models raise `ValueError`; the
polynomial families map every point; any other model raises `ValueError`. -/
def Intrinsics.distort_points (ci : Intrinsics) (p_cam_undistorted : List (ℚ × ℚ)) :
    Except MvgError (List (ℚ × ℚ)) :=
  if ci.distortions.length = 0 then .error .unboundLocal
  else if ["OPENCV", "FULL_OPENCV", "OPENCV_FISHEYE"].contains ci.camera_model_name then
    .error .opencvRequires3d
  else
    match distortMap ci.camera_model_name ci.distortions with
    | some f => .ok (p_cam_undistorted.map f)
    | none => .error .distortNotImplemented

/-- Embeds `Intrinsics.project_and_distort_points`: project to the camera
plane, then distort; the OpenCV coupled models instead call the external
`cv2` projection primitive on the 3D points, which is not embedded. -/
def Intrinsics.project_and_distort_points (ci : Intrinsics)
    (pc3d : List (ℚ × ℚ × ℚ)) :
    Except MvgError (List (ℚ × ℚ) × List ℚ × List Bool) :=
  let pdv := ci.project_points pc3d
  if ["OPENCV", "FULL_OPENCV"].contains ci.camera_model_name then .error .externalCv2
  else if ci.camera_model_name = "OPENCV_FISHEYE" then .error .externalCv2
  else
    match ci.distort_points pdv.1 with
    | .error e => .error e
    | .ok p_camera_plane_distorted => .ok (p_camera_plane_distorted, pdv.2)

/-- Embeds `Intrinsics.camera2image_points`: the full forward pipeline,
3D camera-frame points to pixels, passing disparity and validity through. -/
def Intrinsics.camera2image_points (ci : Intrinsics) (pc3d : List (ℚ × ℚ × ℚ)) :
    Except MvgError (List (ℚ × ℚ) × List ℚ × List Bool) :=
  match ci.project_and_distort_points pc3d with
  | .error e => .error e
  | .ok pdv => .ok (ci.to_image_points pdv.1, pdv.2)

/-- A 2x2 matrix, given row-wise, for the numerical Jacobian of `undistort`. -/
structure Mat2 where
  a : ℚ
  b : ℚ
  c : ℚ
  d : ℚ
  deriving DecidableEq

/-- Determinant of a 2x2 matrix. -/
def Mat2.det (J : Mat2) : ℚ := J.a * J.d - J.b * J.c

/-- One iteration of the Newton loop in `Intrinsics.undistort`, operating on
the whole batch exactly as the numpy code does: per-coordinate steps
`max(eps, kRelStepSize * x_i)`, five forward `distort_points` evaluations,
the central-difference Jacobian with 1 added to both diagonal entries,
`np.linalg.inv` on every 2x2 Jacobian (`LinAlgError` when any determinant
vanishes), and the per-point update `x <- x - J_inv @ (dx - p0)`. -/
def Intrinsics.undistortIteration (ci : Intrinsics) (eps kRelStepSize : ℚ)
    (p0 x : List (ℚ × ℚ)) : Except MvgError (List (ℚ × ℚ)) :=
  let step0 := x.map (fun q => np_maximum eps (kRelStepSize * q.1))
  let step1 := x.map (fun q => np_maximum eps (kRelStepSize * q.2))
  match ci.distort_points x with
  | .error e => .error e
  | .ok dx =>
  match ci.distort_points (List.zipWith (fun (q : ℚ × ℚ) s => (q.1 - s, q.2)) x step0) with
  | .error e => .error e
  | .ok dx_0b =>
  match ci.distort_points (List.zipWith (fun (q : ℚ × ℚ) s => (q.1 + s, q.2)) x step0) with
  | .error e => .error e
  | .ok dx_0f =>
  match ci.distort_points (List.zipWith (fun (q : ℚ × ℚ) s => (q.1, q.2 - s)) x step1) with
  | .error e => .error e
  | .ok dx_1b =>
  match ci.distort_points (List.zipWith (fun (q : ℚ × ℚ) s => (q.1, q.2 + s)) x step1) with
  | .error e => .error e
  | .ok dx_1f =>
    let J : Nat → Mat2 := fun i =>
      let s0 := step0.getD i 0
      let s1 := step1.getD i 0
      let f0 := dx_0f.getD i (0, 0)
      let b0 := dx_0b.getD i (0, 0)
      let f1 := dx_1f.getD i (0, 0)
      let b1 := dx_1b.getD i (0, 0)
      ⟨1 + (f0.1 - b0.1) / (2 * s0), (f1.1 - b1.1) / (2 * s1),
       (f0.2 - b0.2) / (2 * s0), 1 + (f1.2 - b1.2) / (2 * s1)⟩
    if ((List.range x.length).map J).any (fun Ji => Ji.det = 0) then
      .error .linalgSingular
    else
      .ok ((List.range x.length).map (fun i =>
        let Ji := J i
        let xi := x.getD i (0, 0)
        let dxi := dx.getD i (0, 0)
        let p0i := p0.getD i (0, 0)
        let rhs : ℚ × ℚ := (dxi.1 - p0i.1, dxi.2 - p0i.2)
        let sx : ℚ × ℚ :=
          ((Ji.d * rhs.1 - Ji.b * rhs.2) / Ji.det,
           (-Ji.c * rhs.1 + Ji.a * rhs.2) / Ji.det)
        (xi.1 - sx.1, xi.2 - sx.2)))

/-- Embeds `Intrinsics.undistort`: `x` starts as a copy of the distorted
input and the Newton iteration runs a fixed `kNumIterations = 17` times with
no convergence check (`kMaxStepNorm` is defined in the source but never
used).  `eps` is `np.finfo(np.float64).eps = 2 ^ (-52)` and `kRelStepSize`
is `1e-6` at its decimal value. -/
def Intrinsics.undistort (ci : Intrinsics) (pc_distorted : List (ℚ × ℚ)) :
    Except MvgError (List (ℚ × ℚ)) :=
  let eps : ℚ := 1 / 4503599627370496
  let kRelStepSize : ℚ := 1 / 1000000
  let p0 := pc_distorted
  (List.range 17).foldlM (fun x _ => ci.undistortIteration eps kRelStepSize p0 x)
    pc_distorted

/-- The 9x9 sample grid of `_icv_get_rectangles`: `N = 9`, steps
`w / (N-1)` and `h / (N-1)` (Python float division), points `(x*x_step,
y*y_step)` appended with `y` in the outer loop, so entry `k = y*9 + x`. -/
def icv_grid_points (w h : Int) : List (ℚ × ℚ) :=
  let x_step : ℚ := (w : ℚ) / (9 - 1)
  let y_step : ℚ := (h : ℚ) / (9 - 1)
  (List.range 9).flatMap (fun y =>
    (List.range 9).map (fun x => ((x : ℚ) * x_step, (y : ℚ) * y_step)))

/-- An axis-aligned rectangle `edict(x=…, y=…, width=…, height=…)`. -/
structure Rect where
  x : ℚ
  y : ℚ
  width : ℚ
  height : ℚ
  deriving DecidableEq

/-- The outer rectangle of `_icv_get_rectangles`: the axis-aligned bounding
box (`np.min` / `np.max` over both coordinates) of the undistorted grid. -/
def icvOuterRect (u : List (ℚ × ℚ)) : Rect :=
  ⟨np_min (u.map Prod.fst), np_min (u.map Prod.snd),
   np_max (u.map Prod.fst) - np_min (u.map Prod.fst),
   np_max (u.map Prod.snd) - np_min (u.map Prod.snd)⟩

/-- The inner rectangle of `_icv_get_rectangles`: the conditional appends of
the source's double loop read the undistorted point at index `k = y*9 + x`;
`xmin_i` is the max over the left column, `xmax_i` the min over the right
column, `ymin_i` the max over the top row, `ymax_i` the min over the bottom
row. -/
def icvInnerRect (u : List (ℚ × ℚ)) : Rect :=
  let xu_left := (List.range 9).flatMap (fun y =>
    (List.range 9).filterMap (fun x =>
      if x = 0 then some (u.getD (y * 9 + x) (0, 0)).1 else none))
  let xu_right := (List.range 9).flatMap (fun y =>
    (List.range 9).filterMap (fun x =>
      if x = 9 - 1 then some (u.getD (y * 9 + x) (0, 0)).1 else none))
  let yu_top := (List.range 9).flatMap (fun y =>
    (List.range 9).filterMap (fun x =>
      if y = 0 then some (u.getD (y * 9 + x) (0, 0)).2 else none))
  let yu_bottom := (List.range 9).flatMap (fun y =>
    (List.range 9).filterMap (fun x =>
      if y = 9 - 1 then some (u.getD (y * 9 + x) (0, 0)).2 else none))
  let xmin_i := np_max xu_left
  let xmax_i := np_min xu_right
  let ymin_i := np_max yu_top
  let ymax_i := np_min yu_bottom
  ⟨xmin_i, ymin_i, xmax_i - xmin_i, ymax_i - ymin_i⟩

/-- Embeds `Intrinsics._icv_get_rectangles`, returning `(outer, inner)`.
The grid pixels go to the camera plane through `to_camera_points` and
through the Newton `undistort`. -/
def Intrinsics.icv_get_rectangles (ci : Intrinsics) :
    Except MvgError (Rect × Rect) :=
  let points := icv_grid_points ci.w ci.h
  let p_camere_distorted := ci.to_camera_points points
  match ci.undistort p_camere_distorted with
  | .error e => .error e
  | .ok p_camera_undistorted =>
    .ok (icvOuterRect p_camera_undistorted, icvInnerRect p_camera_undistorted)

/-- Embeds `Intrinsics.get_undistort_camera`: maps the inner and outer
rectangles to the viewport, interpolates the two candidate pinhole
projections by `alpha`, and constructs the resulting PINHOLE camera.  The
source performs no degeneracy check on the rectangles (float division by a
zero rectangle extent produces `inf` in numpy, without raising). -/
def Intrinsics.get_undistort_camera (ci : Intrinsics) (alpha : ℚ) :
    Except MvgError Intrinsics :=
  match ci.icv_get_rectangles with
  | .error e => .error e
  | .ok oi =>
    let outer := oi.1
    let inner := oi.2
    let new_image_width := ci.w
    let new_image_height := ci.h
    let fx0 := ((new_image_width : ℚ) - 1) / inner.width
    let fy0 := ((new_image_height : ℚ) - 1) / inner.height
    let cx0 := -fx0 * inner.x
    let cy0 := -fy0 * inner.y
    let fx1 := ((new_image_width : ℚ) - 1) / outer.width
    let fy1 := ((new_image_height : ℚ) - 1) / outer.height
    let cx1 := -fx1 * outer.x
    let cy1 := -fy1 * outer.y
    let fx := fx0 * (1 - alpha) + fx1 * alpha
    let fy := fy0 * (1 - alpha) + fy1 * alpha
    let cx := cx0 * (1 - alpha) + cx1 * alpha
    let cy := cy0 * (1 - alpha) + cy1 * alpha
    Intrinsics.mk? "PINHOLE" new_image_width new_image_height [fx, fy, cx, cy]

/-- A SIMPLE_RADIAL camera with zero radial distortion, negative focal
length `f = -1` and principal point at the origin, on an 8x8 image; its
inner rectangle has negative width and height. -/
def camDeg : Intrinsics := ⟨"SIMPLE_RADIAL", 8, 8, -1, -1, 0, 0, [0]⟩

/-- A SIMPLE_RADIAL camera with zero radial distortion, focal length 1 and
principal point at the origin, on an 8x8 image. -/
def camPos : Intrinsics := ⟨"SIMPLE_RADIAL", 8, 8, 1, 1, 0, 0, [0]⟩

/-- The PINHOLE camera of the end-to-end scenario: `fx = fy = 500`,
`cx = 320`, `cy = 240`, 640x480. -/
def pinhole640 : Intrinsics := ⟨"PINHOLE", 640, 480, 500, 500, 320, 240, []⟩

/-- A PINHOLE camera with distinct focal lengths `fx = 500`, `fy = 600`. -/
def pinholeAsym : Intrinsics := ⟨"PINHOLE", 640, 480, 500, 600, 320, 240, []⟩

/-- The RADIAL camera constructed from params `[500, 320, 240, 1/10, 1/5]`
(single shared focal length `f = 500` in the parameter list). -/
def radialCam : Intrinsics := ⟨"RADIAL", 640, 480, 500, 500, 320, 240, [1/10, 1/5]⟩

/-- A SIMPLE_RADIAL camera whose only distortion coefficient is zero. -/
def srZero : Intrinsics := ⟨"SIMPLE_RADIAL", 640, 480, 500, 500, 320, 240, [0]⟩

/-- The Newton update of the undistortion solver as the specification
describes it: per-coordinate step sizes `max(machine_epsilon, 1e-6 * x_i)`,
a 2x2 Jacobian estimated by central differences of `distort` with 1 added
to each diagonal entry, and the per-point update
`x <- x - J_inv * (distort(x) - p_distorted)` solved independently per
point (failing when some Jacobian is singular). -/
def undistort_newton_update (ci : Intrinsics) (p_distorted x : List (ℚ × ℚ)) :
    Except MvgError (List (ℚ × ℚ)) :=
  let machine_epsilon : ℚ := 1 / 4503599627370496
  let rel_step : ℚ := 1 / 1000000
  let step0 := x.map (fun p => np_maximum machine_epsilon (rel_step * p.1))
  let step1 := x.map (fun p => np_maximum machine_epsilon (rel_step * p.2))
  match ci.distort_points x with
  | .error e => .error e
  | .ok fx =>
  match ci.distort_points (List.zipWith (fun (p : ℚ × ℚ) s => (p.1 - s, p.2)) x step0) with
  | .error e => .error e
  | .ok dx0b =>
  match ci.distort_points (List.zipWith (fun (p : ℚ × ℚ) s => (p.1 + s, p.2)) x step0) with
  | .error e => .error e
  | .ok dx0f =>
  match ci.distort_points (List.zipWith (fun (p : ℚ × ℚ) s => (p.1, p.2 - s)) x step1) with
  | .error e => .error e
  | .ok dx1b =>
  match ci.distort_points (List.zipWith (fun (p : ℚ × ℚ) s => (p.1, p.2 + s)) x step1) with
  | .error e => .error e
  | .ok dx1f =>
    let jacobian : Nat → Mat2 := fun i =>
      let s0 := step0.getD i 0
      let s1 := step1.getD i 0
      let f0 := dx0f.getD i (0, 0)
      let b0 := dx0b.getD i (0, 0)
      let f1 := dx1f.getD i (0, 0)
      let b1 := dx1b.getD i (0, 0)
      ⟨1 + (f0.1 - b0.1) / (2 * s0), (f1.1 - b1.1) / (2 * s1),
       (f0.2 - b0.2) / (2 * s0), 1 + (f1.2 - b1.2) / (2 * s1)⟩
    if ((List.range x.length).map jacobian).any (fun Ji => Ji.det = 0) then
      .error .linalgSingular
    else
      .ok ((List.range x.length).map (fun i =>
        let Ji := jacobian i
        let xi := x.getD i (0, 0)
        let fxi := fx.getD i (0, 0)
        let pi := p_distorted.getD i (0, 0)
        let residual : ℚ × ℚ := (fxi.1 - pi.1, fxi.2 - pi.2)
        let newton_step : ℚ × ℚ :=
          ((Ji.d * residual.1 - Ji.b * residual.2) / Ji.det,
           (-Ji.c * residual.1 + Ji.a * residual.2) / Ji.det)
        (xi.1 - newton_step.1, xi.2 - newton_step.2)))

/-- The left-column abscissas of the undistorted 9x9 grid, read at the grid
indices `k = y*9 + 0` as the claim describes them. -/
def grid_left_col (u : List (ℚ × ℚ)) : List ℚ :=
  (List.range 9).map (fun y => (u.getD (y * 9) (0, 0)).1)

/-- The right-column abscissas of the undistorted 9x9 grid, indices
`k = y*9 + 8`. -/
def grid_right_col (u : List (ℚ × ℚ)) : List ℚ :=
  (List.range 9).map (fun y => (u.getD (y * 9 + 8) (0, 0)).1)

/-- The top-row ordinates of the undistorted 9x9 grid, indices `k = x`. -/
def grid_top_row (u : List (ℚ × ℚ)) : List ℚ :=
  (List.range 9).map (fun x => (u.getD x (0, 0)).2)

/-- The bottom-row ordinates of the undistorted 9x9 grid, indices
`k = 8*9 + x`. -/
def grid_bottom_row (u : List (ℚ × ℚ)) : List ℚ :=
  (List.range 9).map (fun x => (u.getD (8 * 9 + x) (0, 0)).2)

theorem np_maximum_pos {a b : ℚ} (ha : 0 < a) : 0 < np_maximum a b := by
  unfold np_maximum
  split
  · exact lt_of_lt_of_le ha (by assumption)
  · exact ha

/-- For a SIMPLE_RADIAL camera whose single radial coefficient is zero, the
distortion map is the identity. -/
theorem distort_points_simple_radial_zero (ci : Intrinsics)
    (hname : ci.camera_model_name = "SIMPLE_RADIAL")
    (hdist : ci.distortions = [0]) (ps : List (ℚ × ℚ)) :
    ci.distort_points ps = .ok ps := by
  simp [Intrinsics.distort_points, hname, hdist, distortMap]

/-- With an identity distortion map, one Newton iteration started at the
distorted input itself leaves every point unchanged: the residual
`distort(x) - p0` vanishes and the numerically estimated Jacobian is
`[[2, 0], [0, 2]]`, which is invertible. -/
theorem undistortIteration_id (ci : Intrinsics) (eps c : ℚ) (heps : 0 < eps)
    (hdist : ∀ ps, ci.distort_points ps = .ok ps) (p0 : List (ℚ × ℚ)) :
    ci.undistortIteration eps c p0 p0 = .ok p0 := by
  have hstep : ∀ q : ℚ × ℚ, (0:ℚ) < np_maximum eps (c * q.1) :=
    fun q => np_maximum_pos heps
  have hstep' : ∀ q : ℚ × ℚ, (0:ℚ) < np_maximum eps (c * q.2) :=
    fun q => np_maximum_pos heps
  simp only [Intrinsics.undistortIteration, hdist, List.zipWith_map_right,
    List.zipWith_same]
  have hJ : ∀ i, i < p0.length →
      (1 + (((p0.map fun q => (q.1 + np_maximum eps (c * q.1), q.2)).getD i (0, 0)).1 -
            ((p0.map fun q => (q.1 - np_maximum eps (c * q.1), q.2)).getD i (0, 0)).1) /
            (2 * (p0.map fun q => np_maximum eps (c * q.1)).getD i 0) : ℚ) = 2 ∧
      ((((p0.map fun q => (q.1, q.2 + np_maximum eps (c * q.2))).getD i (0, 0)).1 -
            ((p0.map fun q => (q.1, q.2 - np_maximum eps (c * q.2))).getD i (0, 0)).1) /
            (2 * (p0.map fun q => np_maximum eps (c * q.2)).getD i 0) : ℚ) = 0 ∧
      ((((p0.map fun q => (q.1 + np_maximum eps (c * q.1), q.2)).getD i (0, 0)).2 -
            ((p0.map fun q => (q.1 - np_maximum eps (c * q.1), q.2)).getD i (0, 0)).2) /
            (2 * (p0.map fun q => np_maximum eps (c * q.1)).getD i 0) : ℚ) = 0 ∧
      (1 + (((p0.map fun q => (q.1, q.2 + np_maximum eps (c * q.2))).getD i (0, 0)).2 -
            ((p0.map fun q => (q.1, q.2 - np_maximum eps (c * q.2))).getD i (0, 0)).2) /
            (2 * (p0.map fun q => np_maximum eps (c * q.2)).getD i 0) : ℚ) = 2 := by
    intro i hi
    rw [List.getD_eq_getElem _ _ (by simpa using hi),
        List.getD_eq_getElem _ _ (by simpa using hi),
        List.getD_eq_getElem _ _ (by simpa using hi),
        List.getD_eq_getElem _ _ (by simpa using hi),
        List.getD_eq_getElem _ _ (by simpa using hi),
        List.getD_eq_getElem _ _ (by simpa using hi)]
    simp only [List.getElem_map]
    have h0 := (hstep p0[i]).ne'
    have h1 := (hstep' p0[i]).ne'
    constructor
    · rw [show p0[i].1 + np_maximum eps (c * p0[i].1) -
          (p0[i].1 - np_maximum eps (c * p0[i].1)) =
          2 * np_maximum eps (c * p0[i].1) by ring]
      rw [div_self (by positivity)]
      norm_num
    refine ⟨by simp, by simp, ?_⟩
    · rw [show p0[i].2 + np_maximum eps (c * p0[i].2) -
          (p0[i].2 - np_maximum eps (c * p0[i].2)) =
          2 * np_maximum eps (c * p0[i].2) by ring]
      rw [div_self (by positivity)]
      norm_num
  rw [if_neg]
  · congr 1
    apply List.ext_getElem
    · simp
    · intro i h1 h2
      simp only [List.getElem_map, List.getElem_range]
      have hi : i < p0.length := by simpa using h2
      obtain ⟨e00, e01, e10, e11⟩ := hJ i hi
      rw [e00, e01, e10, e11]
      rw [List.getD_eq_getElem _ _ hi]
      simp [Mat2.det]
  · simp only [List.any_eq_true, List.mem_map, List.mem_range, not_exists]
    rintro J ⟨⟨i, hi, rfl⟩, hdet⟩
    obtain ⟨e00, e01, e10, e11⟩ := hJ i hi
    rw [decide_eq_true_eq] at hdet
    rw [e00, e01, e10, e11] at hdet
    simp [Mat2.det] at hdet

/-- With an identity distortion map the whole 17-iteration Newton solver is
the identity: the estimate starts at the input and never moves. -/
theorem undistort_id (ci : Intrinsics)
    (hdist : ∀ ps, ci.distort_points ps = .ok ps) (ps : List (ℚ × ℚ)) :
    ci.undistort ps = .ok ps := by
  unfold Intrinsics.undistort
  have hit := undistortIteration_id ci (1 / 4503599627370496) (1 / 1000000)
    (by norm_num) hdist ps
  generalize List.range 17 = l
  induction l with
  | nil => rfl
  | cons a l ih =>
    rw [List.foldlM_cons, hit]
    exact ih

theorem camDeg_distort_id (ps : List (ℚ × ℚ)) : camDeg.distort_points ps = .ok ps :=
  distort_points_simple_radial_zero camDeg rfl rfl ps

theorem camPos_distort_id (ps : List (ℚ × ℚ)) : camPos.distort_points ps = .ok ps :=
  distort_points_simple_radial_zero camPos rfl rfl ps

/-- The camera-plane grid of `camDeg` written out: the 9x9 pixel grid over
`[0,8]` square mapped through `K_3_inv` with `f = -1`, `c = (0,0)`. -/
theorem camDeg_grid_camera_points :
    camDeg.to_camera_points (icv_grid_points camDeg.w camDeg.h) =
    [(0, 0),
     (-1, 0),
     (-2, 0),
     (-3, 0),
     (-4, 0),
     (-5, 0),
     (-6, 0),
     (-7, 0),
     (-8, 0),
     (0, -1),
     (-1, -1),
     (-2, -1),
     (-3, -1),
     (-4, -1),
     (-5, -1),
     (-6, -1),
     (-7, -1),
     (-8, -1),
     (0, -2),
     (-1, -2),
     (-2, -2),
     (-3, -2),
     (-4, -2),
     (-5, -2),
     (-6, -2),
     (-7, -2),
     (-8, -2),
     (0, -3),
     (-1, -3),
     (-2, -3),
     (-3, -3),
     (-4, -3),
     (-5, -3),
     (-6, -3),
     (-7, -3),
     (-8, -3),
     (0, -4),
     (-1, -4),
     (-2, -4),
     (-3, -4),
     (-4, -4),
     (-5, -4),
     (-6, -4),
     (-7, -4),
     (-8, -4),
     (0, -5),
     (-1, -5),
     (-2, -5),
     (-3, -5),
     (-4, -5),
     (-5, -5),
     (-6, -5),
     (-7, -5),
     (-8, -5),
     (0, -6),
     (-1, -6),
     (-2, -6),
     (-3, -6),
     (-4, -6),
     (-5, -6),
     (-6, -6),
     (-7, -6),
     (-8, -6),
     (0, -7),
     (-1, -7),
     (-2, -7),
     (-3, -7),
     (-4, -7),
     (-5, -7),
     (-6, -7),
     (-7, -7),
     (-8, -7),
     (0, -8),
     (-1, -8),
     (-2, -8),
     (-3, -8),
     (-4, -8),
     (-5, -8),
     (-6, -8),
     (-7, -8),
     (-8, -8)] := by decide

/-- The camera-plane grid of `camPos` written out: with `f = 1`, `c = (0,0)`
the map to the camera plane is the identity on the 9x9 grid over `[0,8]`. -/
theorem camPos_grid_camera_points :
    camPos.to_camera_points (icv_grid_points camPos.w camPos.h) =
    [(0, 0),
     (1, 0),
     (2, 0),
     (3, 0),
     (4, 0),
     (5, 0),
     (6, 0),
     (7, 0),
     (8, 0),
     (0, 1),
     (1, 1),
     (2, 1),
     (3, 1),
     (4, 1),
     (5, 1),
     (6, 1),
     (7, 1),
     (8, 1),
     (0, 2),
     (1, 2),
     (2, 2),
     (3, 2),
     (4, 2),
     (5, 2),
     (6, 2),
     (7, 2),
     (8, 2),
     (0, 3),
     (1, 3),
     (2, 3),
     (3, 3),
     (4, 3),
     (5, 3),
     (6, 3),
     (7, 3),
     (8, 3),
     (0, 4),
     (1, 4),
     (2, 4),
     (3, 4),
     (4, 4),
     (5, 4),
     (6, 4),
     (7, 4),
     (8, 4),
     (0, 5),
     (1, 5),
     (2, 5),
     (3, 5),
     (4, 5),
     (5, 5),
     (6, 5),
     (7, 5),
     (8, 5),
     (0, 6),
     (1, 6),
     (2, 6),
     (3, 6),
     (4, 6),
     (5, 6),
     (6, 6),
     (7, 6),
     (8, 6),
     (0, 7),
     (1, 7),
     (2, 7),
     (3, 7),
     (4, 7),
     (5, 7),
     (6, 7),
     (7, 7),
     (8, 7),
     (0, 8),
     (1, 8),
     (2, 8),
     (3, 8),
     (4, 8),
     (5, 8),
     (6, 8),
     (7, 8),
     (8, 8)] := by decide

/-- Unfolding lemma for `_icv_get_rectangles` once the undistorted grid is
known. -/
theorem icv_get_rectangles_eq (ci : Intrinsics) (u : List (ℚ × ℚ))
    (hu : ci.undistort (ci.to_camera_points (icv_grid_points ci.w ci.h)) = .ok u) :
    ci.icv_get_rectangles = .ok (icvOuterRect u, icvInnerRect u) := by
  simp only [Intrinsics.icv_get_rectangles, hu]

set_option maxRecDepth 40000 in
/-- The rectangles of `camDeg`: the negative focal length reverses left and
right, so the inner rectangle has negative width and height. -/
theorem camDeg_rectangles :
    camDeg.icv_get_rectangles = .ok (⟨-8, -8, 8, 8⟩, ⟨0, 0, -8, -8⟩) := by
  have hu := undistort_id camDeg camDeg_distort_id
    (camDeg.to_camera_points (icv_grid_points camDeg.w camDeg.h))
  rw [camDeg_grid_camera_points] at hu
  rw [icv_get_rectangles_eq camDeg _ (camDeg_grid_camera_points ▸ hu)]
  decide

set_option maxRecDepth 40000 in
/-- The rectangles of `camPos`: both rectangles are the full `[0,8]` square. -/
theorem camPos_rectangles :
    camPos.icv_get_rectangles = .ok (⟨0, 0, 8, 8⟩, ⟨0, 0, 8, 8⟩) := by
  have hu := undistort_id camPos camPos_distort_id
    (camPos.to_camera_points (icv_grid_points camPos.w camPos.h))
  rw [camPos_grid_camera_points] at hu
  rw [icv_get_rectangles_eq camPos _ (camPos_grid_camera_points ▸ hu)]
  decide

/-- Helper: the result `Intrinsics` of a successful construction carries the
requested model name and image size. -/
theorem mk?_fields_of_ok {name : String} {w h : Int} {ps : List ℚ}
    {r : Intrinsics} (hr : Intrinsics.mk? name w h ps = .ok r) :
    r.camera_model_name = name ∧ r.w = w ∧ r.h = h := by
  cases hm : SUPPORTED_CAMERA_MODELS.lookup name with
  | none =>
    simp only [Intrinsics.mk?, hm] at hr
    cases hr
  | some m =>
    simp only [Intrinsics.mk?, hm] at hr
    split at hr
    · cases hr
    · split at hr
      · cases hr
      · injection hr with h'
        rw [← h']
        exact ⟨rfl, rfl, rfl⟩

/-- Helper: unfolding lemma for `get_undistort_camera` once the rectangles
are known: the interpolated pinhole parameters are handed to the
constructor with no degeneracy check. -/
theorem get_undistort_camera_eq (ci : Intrinsics) (outer inner : Rect)
    (alpha : ℚ) (hr : ci.icv_get_rectangles = .ok (outer, inner)) :
    ci.get_undistort_camera alpha =
      Intrinsics.mk? "PINHOLE" ci.w ci.h
        [((ci.w : ℚ) - 1) / inner.width * (1 - alpha) +
           ((ci.w : ℚ) - 1) / outer.width * alpha,
         ((ci.h : ℚ) - 1) / inner.height * (1 - alpha) +
           ((ci.h : ℚ) - 1) / outer.height * alpha,
         -(((ci.w : ℚ) - 1) / inner.width) * inner.x * (1 - alpha) +
           -(((ci.w : ℚ) - 1) / outer.width) * outer.x * alpha,
         -(((ci.h : ℚ) - 1) / inner.height) * inner.y * (1 - alpha) +
           -(((ci.h : ℚ) - 1) / outer.height) * outer.y * alpha] := by
  simp only [Intrinsics.get_undistort_camera, hr]

/-- Helper: evaluation of `get_undistort_camera` on `camDeg` at `alpha = 0`:
despite the degenerate (negative width and height) inner rectangle, a
PINHOLE camera is returned with no error. -/
theorem camDeg_undistort_camera :
    camDeg.get_undistort_camera 0 = .ok ⟨"PINHOLE", 8, 8, -7/8, -7/8, 0, 0, []⟩ := by
  rw [get_undistort_camera_eq camDeg ⟨-8, -8, 8, 8⟩ ⟨0, 0, -8, -8⟩ 0 camDeg_rectangles]
  decide

/-- Helper: `np_clip_min` agrees with `max` (they differ only in which
argument is returned on ties). -/
theorem np_clip_min_eq_max (z e : ℚ) : np_clip_min z e = max z e := by
  rw [np_clip_min, max_def]
  rcases lt_trichotomy z e with h | h | h
  · rw [if_pos h, if_pos h.le]
  · subst h
    simp
  · rw [if_neg (asymm h), if_neg (not_le.mpr h)]

/-- C1: the spec says a zero-length distortion vector (PINHOLE and
SIMPLE_PINHOLE) makes `distort_points` the identity.  The code instead
executes `return p_cam_distorted.copy()` where `p_cam_distorted` is an
unassigned local variable, raising `UnboundLocalError`; the intended
identity behaviour does hold for a nonempty all-zero distortion vector
(SIMPLE_RADIAL with `k = 0`). -/
theorem claim_C1_zero_distortion :
    Intrinsics.mk? "PINHOLE" 640 480 [500, 500, 320, 240] = .ok pinhole640 ∧
    pinhole640.distortions = [] ∧
    pinhole640.distort_points [(1, 2)] = .error .unboundLocal ∧
    Intrinsics.mk? "SIMPLE_RADIAL" 640 480 [500, 320, 240, 0] = .ok srZero ∧
    srZero.distort_points [(1, 2)] = .ok [(1, 2)] := by decide

/-- C2: projecting `(0, 0, 10)` with the 640x480 PINHOLE camera does reach
the undistorted camera-plane point `(0, 0)` with disparity `1/10` and a
true validity flag, but the full pipeline `camera2image_points` then calls
`distort_points` on a zero-length distortion vector and dies with
`UnboundLocalError` instead of returning the pixel `(320, 240)`. -/
theorem claim_C2_pinhole_pipeline :
    Intrinsics.mk? "PINHOLE" 640 480 [500, 500, 320, 240] = .ok pinhole640 ∧
    pinhole640.project_points [(0, 0, 10)] = ([(0, 0)], [1/10], [true]) ∧
    pinhole640.to_image_points [(0, 0)] = [(320, 240)] ∧
    pinhole640.camera2image_points [(0, 0, 10)] = .error .unboundLocal := by decide

/-- C3: `crop` passes `self.fx` for both focal lengths of the new camera,
so a PINHOLE camera with `fx = 500`, `fy = 600` cropped at `(10, 20)` to
size `(100, 200)` comes back with `fy = 500`, not the original `600`; the
principal point, `fx`, size, kind and distortions behave as claimed.  On a
RADIAL camera, whose parameter list uses a single `f` while `crop` emits
`[fx, fy, cx, cy, ...]`, `crop` raises a parameter-count error outright. -/
theorem claim_C3_crop :
    Intrinsics.mk? "PINHOLE" 640 480 [500, 600, 320, 240] = .ok pinholeAsym ∧
    pinholeAsym.crop (10, 20) (100, 200) =
      .ok ⟨"PINHOLE", 100, 200, 500, 500, 310, 220, []⟩ ∧
    pinholeAsym.fy = 600 ∧ ((500 : ℚ) ≠ 600) ∧
    radialCam.crop (0, 0) (10, 10) = .error .paramCount := by decide

/-- C4: `undistort` initializes the estimate to the distorted input and
performs exactly 17 iterations, with no early exit, of the Newton update
described by the claim: steps `max(machine_epsilon, 1e-6 * x_i)`, a
central-difference Jacobian with 1 added to each diagonal entry, and the
per-point update `x <- x - J_inv * (distort(x) - p_distorted)`. -/
theorem claim_C4_undistort_newton (ci : Intrinsics) (pc_distorted : List (ℚ × ℚ)) :
    ci.undistort pc_distorted =
      (List.range 17).foldlM
        (fun x _ => undistort_newton_update ci pc_distorted x) pc_distorted := rfl

/-- C5: the `params` round-trip fails for RADIAL, whose declared parameter
list is `f, cx, cy, k1, k2` (arity 5) but whose `params` property emits
`[fx, fy, cx, cy, k1, k2]` (length 6) because `is_single_focal_lenght`
tests for the substring `SIMPLE`; and the UNKNOWN constructor rejects the
empty list matching its declared arity 0, because its `params_str` of `'[]'`
splits into one bogus parameter name. -/
theorem claim_C5_params_roundtrip :
    (SUPPORTED_CAMERA_MODELS.lookup "RADIAL").map CameraModel.n_params = some 5 ∧
    (Intrinsics.mk? "RADIAL" 640 480 [500, 320, 240, 1/10, 1/5]).map Intrinsics.params =
      .ok [500, 500, 320, 240, 1/10, 1/5] ∧
    ([500, 500, 320, 240, 1/10, 1/5] : List ℚ) ≠ [500, 320, 240, 1/10, 1/5] ∧
    (SUPPORTED_CAMERA_MODELS.lookup "UNKNOWN").map CameraModel.n_params = some 0 ∧
    Intrinsics.mk? "UNKNOWN" 640 480 [] = .error .paramCount := by decide

/-- C6: `project_points` marks a point valid exactly when `z > 1e-3`,
returns disparity `1 / max(z, 1e-3)` (always strictly positive, hence
finite), and scales `(x, y)` by that disparity. -/
theorem claim_C6_project_points (ci : Intrinsics) (pc3d : List (ℚ × ℚ × ℚ)) :
    (ci.project_points pc3d).2.2 =
      pc3d.map (fun p => decide ((1/1000 : ℚ) < p.2.2)) ∧
    (ci.project_points pc3d).2.1 =
      pc3d.map (fun p => 1 / max p.2.2 (1/1000)) ∧
    (ci.project_points pc3d).1 =
      List.zipWith (fun (p : ℚ × ℚ × ℚ) d => (p.1 * d, p.2.1 * d))
        pc3d (ci.project_points pc3d).2.1 ∧
    (ci.project_points pc3d).2.1.all (fun d => decide ((0 : ℚ) < d)) = true := by
  refine ⟨rfl, ?_, ?_, ?_⟩
  · simp only [Intrinsics.project_points, np_clip_min_eq_max]
  · simp only [Intrinsics.project_points]
    induction pc3d with
    | nil => rfl
    | cons p ps ih => simpa using ih
  · simp only [Intrinsics.project_points, List.all_eq_true, List.mem_map,
      decide_eq_true_eq]
    rintro d ⟨p, hp, rfl⟩
    have : (0 : ℚ) < np_clip_min p.2.2 (1/1000) := by
      rw [np_clip_min]
      split
      · norm_num
      · linarith [not_lt.mp (by assumption)]
    positivity

/-- C7 counterexample: the sample grid is evenly spaced over
`[0, width] x [0, height]`, not `[0, width-1] x [0, height-1]` as the claim
states: for a 640x480 image the grid contains the point `(640, 480)`,
whose abscissa exceeds `width - 1 = 639`. -/
theorem claim_C7_counterexample :
    ((640 : ℚ), (480 : ℚ)) ∈ icv_grid_points 640 480 ∧
    ¬ ((640 : ℚ) ≤ 640 - 1) := by decide

/-- C7 (amended: the grid is evenly spaced over `[0, width] x [0, height]`,
with step `width/8` resp. `height/8`): the inner rectangle's left edge is
the maximum undistorted x over the grid's left column, its right edge the
minimum x over the right column, its top edge the maximum y over the top
row, its bottom edge the minimum y over the bottom row, and the outer
rectangle is the bounding box of all 81 undistorted points. -/
theorem claim_C7_rectangles (ci : Intrinsics) (u : List (ℚ × ℚ))
    (outer inner : Rect)
    (hu : ci.undistort (ci.to_camera_points (icv_grid_points ci.w ci.h)) = .ok u)
    (hr : ci.icv_get_rectangles = .ok (outer, inner)) :
    icv_grid_points ci.w ci.h =
      (List.range 9).flatMap (fun y => (List.range 9).map
        (fun x => ((x : ℚ) * ((ci.w : ℚ) / 8), (y : ℚ) * ((ci.h : ℚ) / 8)))) ∧
    inner.x = np_max (grid_left_col u) ∧
    inner.x + inner.width = np_min (grid_right_col u) ∧
    inner.y = np_max (grid_top_row u) ∧
    inner.y + inner.height = np_min (grid_bottom_row u) ∧
    outer.x = np_min (u.map Prod.fst) ∧
    outer.y = np_min (u.map Prod.snd) ∧
    outer.x + outer.width = np_max (u.map Prod.fst) ∧
    outer.y + outer.height = np_max (u.map Prod.snd) := by
  rw [icv_get_rectangles_eq ci u hu] at hr
  injection hr with hpair
  injection hpair with ho hi
  subst ho hi
  refine ⟨?_, rfl, ?_, rfl, ?_, rfl, rfl, ?_, ?_⟩
  · simp only [icv_grid_points]
    norm_num
  · show np_max (grid_left_col u) + (np_min (grid_right_col u) - np_max (grid_left_col u)) =
      np_min (grid_right_col u)
    ring
  · show np_max (grid_top_row u) + (np_min (grid_bottom_row u) - np_max (grid_top_row u)) =
      np_min (grid_bottom_row u)
    ring
  · show np_min (u.map Prod.fst) + (np_max (u.map Prod.fst) - np_min (u.map Prod.fst)) =
      np_max (u.map Prod.fst)
    ring
  · show np_min (u.map Prod.snd) + (np_max (u.map Prod.snd) - np_min (u.map Prod.snd)) =
      np_max (u.map Prod.snd)
    ring

/-- C7 witness: the amended rectangle description instantiated at `camPos`,
whose undistorted grid is the 9x9 integer grid on `[0, 8]` squared. -/
theorem claim_C7_witness :
    icv_grid_points camPos.w camPos.h =
      (List.range 9).flatMap (fun y => (List.range 9).map
        (fun x => ((x : ℚ) * ((camPos.w : ℚ) / 8), (y : ℚ) * ((camPos.h : ℚ) / 8)))) ∧
    (⟨0, 0, 8, 8⟩ : Rect).x =
      np_max (grid_left_col (camPos.to_camera_points (icv_grid_points camPos.w camPos.h))) ∧
    (⟨0, 0, 8, 8⟩ : Rect).x + (⟨0, 0, 8, 8⟩ : Rect).width =
      np_min (grid_right_col (camPos.to_camera_points (icv_grid_points camPos.w camPos.h))) ∧
    (⟨0, 0, 8, 8⟩ : Rect).y =
      np_max (grid_top_row (camPos.to_camera_points (icv_grid_points camPos.w camPos.h))) ∧
    (⟨0, 0, 8, 8⟩ : Rect).y + (⟨0, 0, 8, 8⟩ : Rect).height =
      np_min (grid_bottom_row (camPos.to_camera_points (icv_grid_points camPos.w camPos.h))) ∧
    (⟨0, 0, 8, 8⟩ : Rect).x =
      np_min ((camPos.to_camera_points (icv_grid_points camPos.w camPos.h)).map Prod.fst) ∧
    (⟨0, 0, 8, 8⟩ : Rect).y =
      np_min ((camPos.to_camera_points (icv_grid_points camPos.w camPos.h)).map Prod.snd) ∧
    (⟨0, 0, 8, 8⟩ : Rect).x + (⟨0, 0, 8, 8⟩ : Rect).width =
      np_max ((camPos.to_camera_points (icv_grid_points camPos.w camPos.h)).map Prod.fst) ∧
    (⟨0, 0, 8, 8⟩ : Rect).y + (⟨0, 0, 8, 8⟩ : Rect).height =
      np_max ((camPos.to_camera_points (icv_grid_points camPos.w camPos.h)).map Prod.snd) :=
  claim_C7_rectangles camPos
    (camPos.to_camera_points (icv_grid_points camPos.w camPos.h)) ⟨0, 0, 8, 8⟩
    ⟨0, 0, 8, 8⟩ (undistort_id camPos camPos_distort_id _) camPos_rectangles

/-- C8 counterexample: `camDeg` has an inner rectangle of negative width
and height, yet `get_undistort_camera` does not fail: it returns a PINHOLE
camera.  (No degeneracy check, and no `DegenerateRectificationError`,
exists in the code.) -/
theorem claim_C8_counterexample :
    camDeg.icv_get_rectangles = .ok (⟨-8, -8, 8, 8⟩, ⟨0, 0, -8, -8⟩) ∧
    (⟨0, 0, -8, -8⟩ : Rect).width < 0 ∧ (⟨0, 0, -8, -8⟩ : Rect).height < 0 ∧
    camDeg.get_undistort_camera 0 = .ok ⟨"PINHOLE", 8, 8, -7/8, -7/8, 0, 0, []⟩ :=
  ⟨camDeg_rectangles, by decide, by decide, camDeg_undistort_camera⟩

/-- C8 (amended: rectification planning performs no degeneracy check and
never signals a degenerate inner rectangle): whenever
`get_undistort_camera` returns a camera — degenerate inner rectangle or
not — that camera is a PINHOLE model with the source image's size. -/
theorem claim_C8_undistort_camera (ci : Intrinsics) (alpha : ℚ) (r : Intrinsics)
    (h : ci.get_undistort_camera alpha = .ok r) :
    r.camera_model_name = "PINHOLE" ∧ r.w = ci.w ∧ r.h = ci.h := by
  cases hrect : ci.icv_get_rectangles with
  | error e =>
    simp only [Intrinsics.get_undistort_camera, hrect] at h
    cases h
  | ok oi =>
    simp only [Intrinsics.get_undistort_camera, hrect] at h
    exact mk?_fields_of_ok h

/-- C8 witness: the amended statement applied to `camDeg` at `alpha = 0`,
for which the planner succeeds even though the inner rectangle is
degenerate. -/
theorem claim_C8_witness :
    (⟨"PINHOLE", 8, 8, -7/8, -7/8, 0, 0, []⟩ : Intrinsics).camera_model_name = "PINHOLE" ∧
    (⟨"PINHOLE", 8, 8, -7/8, -7/8, 0, 0, []⟩ : Intrinsics).w = camDeg.w ∧
    (⟨"PINHOLE", 8, 8, -7/8, -7/8, 0, 0, []⟩ : Intrinsics).h = camDeg.h :=
  claim_C8_undistort_camera camDeg 0 _ camDeg_undistort_camera

/-- C9: an unrecognized model name is rejected, and the declared arity of
UNKNOWN is 0; but constructing UNKNOWN with the wrong-length list `[1]`
does not raise a parameter-count error — the `'[]'` parameter string splits
into one bogus name, the length check passes, and construction instead
dies in `np.linalg.inv` on the all-zero camera matrix. -/
theorem claim_C9_constructor_errors :
    Intrinsics.mk? "NOT_A_MODEL" 640 480 [] = .error .invalidModel ∧
    (SUPPORTED_CAMERA_MODELS.lookup "UNKNOWN").map CameraModel.n_params = some 0 ∧
    Intrinsics.mk? "UNKNOWN" 640 480 [1] = .error .linalgSingular ∧
    MvgError.linalgSingular ≠ MvgError.paramCount := by decide

/-- C10: `from_homogeneous` after `to_homogeneous` is the identity on every
batch of points: the appended coordinate is 1, so the final division
divides by 1 and dropping the last coordinate recovers the input. -/
theorem claim_C10_homogeneous_roundtrip (points : List (List ℚ)) :
    from_homogeneous (to_homogeneous points) = points := by
  unfold from_homogeneous to_homogeneous
  rw [List.map_map]
  apply List.map_id''
  intro p
  simp [Function.comp, List.dropLast_concat, List.getLastD_concat]
